import Mathlib

/-!
Verification development for the BSK1 Seoul subway congestion pipeline.

The pipeline (src/src/transform.py, src/src/metrics.py) is embedded shallowly:
tables are lists of records, floating point congestion readings are modelled as
`Option ℚ` where `none` stands for NaN / missing (IEEE comparisons with NaN are
false, which the comparison helpers reproduce).  The aggregation functions use
pandas group-by with sorted group keys; grouping is embedded as "distinct keys,
sorted, each key paired with the sublist of matching rows in original order".
Sorting uses the stable `List.insertionSort`, which matches the stable sorted
order pandas produces (any two stable sorts agree).
-/

namespace BSK1

/-- A Python float that may be NaN/missing: `none` models NaN. -/
abbrev PyFloat := Option ℚ

/-- IEEE-style `>` against a constant: any comparison with NaN is false. -/
def pyGt (v : PyFloat) (c : ℚ) : Bool :=
  match v with
  | some q => decide (c < q)
  | none => false

/-- The CONGESTION_LEVELS table of src/src/metrics.py: label, lower bound,
upper bound (`none` models `float("inf")`), in dict insertion order. -/
def CONGESTION_LEVELS : List (String × ℚ × Option ℚ) :=
  [("여유", 0, some 30), ("보통", 30, some 60), ("혼잡", 60, some 90), ("매우혼잡", 90, none)]

/-- One bucket test `min_val <= congestion < max_val`; a NaN input compares false,
and `q < inf` is true for every rational `q`. -/
def inBucket (congestion : PyFloat) (lo : ℚ) (hi : Option ℚ) : Bool :=
  match congestion with
  | none => false
  | some q =>
    decide (lo ≤ q) &&
      (match hi with
       | none => true
       | some h => decide (q < h))

/-- `get_congestion_level` of src/src/metrics.py: first matching bucket of
CONGESTION_LEVELS, with the "매우혼잡" fallback when no bucket matches. -/
def get_congestion_level (congestion : PyFloat) : String :=
  match CONGESTION_LEVELS.find? (fun lvl => inBucket congestion lvl.2.1 lvl.2.2) with
  | some lvl => lvl.1
  | none => "매우혼잡"

/-- Severity index of the four labels, for stating monotonicity. -/
def severity (label : String) : ℕ :=
  if label = "여유" then 0 else if label = "보통" then 1 else if label = "혼잡" then 2 else 3

/-- One record of the cleaned long table `congestion_long`.  The `station_code`
column is carried by the real table but never read by any aggregation, so it is
omitted from the record. -/
structure Row where
  day_type : String
  line : String
  station_name : String
  direction : String
  time_slot : String
  congestion : PyFloat
deriving DecidableEq

/-- Distinct elements in order of first appearance (pandas `Series.unique`).
`List.dedup` keeps the last occurrence, so it is applied to the reversal. -/
def uniqFirst {α : Type} [DecidableEq α] (l : List α) : List α :=
  l.reverse.dedup.reverse

abbrev Key3 := String × String × String
abbrev Key4 := String × String × String × String
abbrev Key5 := String × String × String × String × String

/-- Code-point lexicographic comparison, as Python compares strings. -/
def strLt (a b : String) : Bool := decide (a.data < b.data)

/-- Lexicographic comparator on 3-part group keys (pandas sorts group keys). -/
def key3Le (a b : Key3) : Bool :=
  if a.1 ≠ b.1 then strLt a.1 b.1
  else if a.2.1 ≠ b.2.1 then strLt a.2.1 b.2.1
  else decide (a.2.2 ≤ b.2.2)

/-- Lexicographic comparator on 4-part group keys. -/
def key4Le (a b : Key4) : Bool :=
  if a.1 ≠ b.1 then strLt a.1 b.1 else key3Le a.2 b.2

/-- Lexicographic comparator on 5-part group keys. -/
def key5Le (a b : Key5) : Bool :=
  if a.1 ≠ b.1 then strLt a.1 b.1 else key4Le a.2 b.2

def rowKey3 (r : Row) : Key3 := (r.day_type, r.line, r.time_slot)
def rowKey4 (r : Row) : Key4 := (r.day_type, r.line, r.station_name, r.direction)
def rowKey5 (r : Row) : Key5 := (r.day_type, r.line, r.station_name, r.direction, r.time_slot)

/-- Group keys of `df.groupby(["day_type","line","time_slot"])`: the distinct
key tuples, in sorted order (pandas groupby default `sort=True`). -/
def groupKeys3 (df : List Row) : List Key3 :=
  List.insertionSort (fun a b => key3Le a b = true) (uniqFirst (df.map rowKey3))

def groupKeys4 (df : List Row) : List Key4 :=
  List.insertionSort (fun a b => key4Le a b = true) (uniqFirst (df.map rowKey4))

def groupKeys5 (df : List Row) : List Key5 :=
  List.insertionSort (fun a b => key5Le a b = true) (uniqFirst (df.map rowKey5))

/-- The rows of one group, in original row order. -/
def rowsOf3 (k : Key3) (df : List Row) : List Row :=
  df.filter (fun r => decide (rowKey3 r = k))

def rowsOf4 (k : Key4) (df : List Row) : List Row :=
  df.filter (fun r => decide (rowKey4 r = k))

def rowsOf5 (k : Key5) (df : List Row) : List Row :=
  df.filter (fun r => decide (rowKey5 r = k))

/-- The non-missing congestion values of a list of rows (pandas `skipna`). -/
def colVals (rs : List Row) : List ℚ := rs.filterMap (fun r => r.congestion)

/-- pandas mean over the non-missing values; NaN when there are none. -/
def listMean (vs : List ℚ) : PyFloat :=
  if vs.length = 0 then none else some (vs.sum / (vs.length : ℚ))

/-- pandas sample variance (default `ddof=1`) over the non-missing values;
NaN when there are fewer than two. -/
def listVar (vs : List ℚ) : PyFloat :=
  if vs.length ≤ 1 then none
  else some ((vs.map (fun x => (x - vs.sum / (vs.length : ℚ)) ^ 2)).sum / ((vs.length : ℚ) - 1))

/-- One output record of `calc_line_time_avg`.  The real table also carries a
`std_congestion` column (a square root, irrational in general); no verified
property mentions it, so the record omits it. -/
structure LineTimeRow where
  day_type : String
  line : String
  time_slot : String
  avg_congestion : PyFloat
  max_congestion : PyFloat
  min_congestion : PyFloat
  sample_count : ℕ
  congestion_level : String
deriving DecidableEq

/-- `calc_line_time_avg` of src/src/metrics.py. -/
def calc_line_time_avg (df : List Row) : List LineTimeRow :=
  (groupKeys3 df).map (fun k =>
    let vs := colVals (rowsOf3 k df)
    { day_type := k.1, line := k.2.1, time_slot := k.2.2,
      avg_congestion := listMean vs, max_congestion := vs.max?, min_congestion := vs.min?,
      sample_count := vs.length, congestion_level := get_congestion_level (listMean vs) })

/-- One output record of `calc_station_time_avg`. -/
structure StationTimeRow where
  day_type : String
  line : String
  station_name : String
  direction : String
  time_slot : String
  avg_congestion : PyFloat
  max_congestion : PyFloat
  min_congestion : PyFloat
  congestion_level : String
deriving DecidableEq

/-- `calc_station_time_avg` of src/src/metrics.py. -/
def calc_station_time_avg (df : List Row) : List StationTimeRow :=
  (groupKeys5 df).map (fun k =>
    let vs := colVals (rowsOf5 k df)
    { day_type := k.1, line := k.2.1, station_name := k.2.2.1, direction := k.2.2.2.1,
      time_slot := k.2.2.2.2,
      avg_congestion := listMean vs, max_congestion := vs.max?, min_congestion := vs.min?,
      congestion_level := get_congestion_level (listMean vs) })

/-- One row of the intermediate `station_avg` frame shared by both top-N
functions: mean congestion per (day_type, line, station_name, direction). -/
structure StationAvgRow where
  day_type : String
  line : String
  station_name : String
  direction : String
  avg_congestion : PyFloat
deriving DecidableEq

def station_avg (df : List Row) : List StationAvgRow :=
  (groupKeys4 df).map (fun k =>
    { day_type := k.1, line := k.2.1, station_name := k.2.2.1, direction := k.2.2.2,
      avg_congestion := listMean (colVals (rowsOf4 k df)) })

/-- A station-average row whose mean is known non-missing (what survives
`DataFrame.nlargest`, which drops NaN rows). -/
structure EligRow where
  day_type : String
  line : String
  station_name : String
  direction : String
  avg_congestion : ℚ
deriving DecidableEq

def dropMissingAvg (rs : List StationAvgRow) : List EligRow :=
  rs.filterMap (fun r =>
    match r.avg_congestion with
    | some q => some ⟨r.day_type, r.line, r.station_name, r.direction, q⟩
    | none => none)

/-- One row of the top-N output tables. -/
structure TopRow where
  day_type : String
  line : String
  station_name : String
  direction : String
  avg_congestion : ℚ
  rank : ℕ
  rank_type : String
deriving DecidableEq

/-- `top_n_day["rank"] = range(1, len(top_n_day) + 1)` plus the constant
`rank_type` column. -/
def assignRanks (rank_type : String) : ℕ → List EligRow → List TopRow
  | _, [] => []
  | i, r :: rs =>
    ⟨r.day_type, r.line, r.station_name, r.direction, r.avg_congestion, i, rank_type⟩ ::
      assignRanks rank_type (i + 1) rs

/-- `DataFrame.nlargest(n, "avg_congestion")`: drop NaN rows, stable descending
sort (ties keep first), take `n`. -/
def eligDesc (a b : EligRow) : Prop := b.avg_congestion ≤ a.avg_congestion

def eligAsc (a b : EligRow) : Prop := a.avg_congestion ≤ b.avg_congestion

instance : DecidableRel eligDesc := fun a b =>
  inferInstanceAs (Decidable (b.avg_congestion ≤ a.avg_congestion))

instance : DecidableRel eligAsc := fun a b =>
  inferInstanceAs (Decidable (a.avg_congestion ≤ b.avg_congestion))

instance : IsTotal EligRow eligDesc := ⟨fun a b => le_total b.avg_congestion a.avg_congestion⟩

instance : IsTotal EligRow eligAsc := ⟨fun a b => le_total a.avg_congestion b.avg_congestion⟩

instance : IsTrans EligRow eligDesc := ⟨fun _ _ _ h1 h2 => le_trans h2 h1⟩

instance : IsTrans EligRow eligAsc := ⟨fun _ _ _ h1 h2 => le_trans h1 h2⟩

def nlargestAvg (n : ℕ) (rs : List StationAvgRow) : List EligRow :=
  (List.insertionSort eligDesc (dropMissingAvg rs)).take n

/-- `DataFrame.nsmallest(n, "avg_congestion")`: drop NaN rows, stable ascending
sort, take `n`. -/
def nsmallestAvg (n : ℕ) (rs : List StationAvgRow) : List EligRow :=
  (List.insertionSort eligAsc (dropMissingAvg rs)).take n

/-- `pd.concat(dfs, ignore_index=True)`: raises `ValueError` when the list of
frames is empty, otherwise concatenates. -/
def pd_concat (dfs : List (List TopRow)) : Except String (List TopRow) :=
  if dfs.isEmpty then Except.error "No objects to concatenate" else Except.ok dfs.flatten

/-- `calc_top_n_congested` of src/src/metrics.py. -/
def calc_top_n_congested (df : List Row) (n : ℕ) : Except String (List TopRow) :=
  let sa := station_avg df
  let day_types := uniqFirst (sa.map (fun r => r.day_type))
  pd_concat (day_types.map (fun d =>
    assignRanks "혼잡" 1 (nlargestAvg n (sa.filter (fun r => decide (r.day_type = d))))))

/-- `calc_top_n_least_congested` of src/src/metrics.py: zero means are dropped
("not in service") before the per-day-type selection. -/
def calc_top_n_least_congested (df : List Row) (n : ℕ) : Except String (List TopRow) :=
  let sa := (station_avg df).filter (fun r => pyGt r.avg_congestion 0)
  let day_types := uniqFirst (sa.map (fun r => r.day_type))
  pd_concat (day_types.map (fun d =>
    assignRanks "여유" 1 (nsmallestAvg n (sa.filter (fun r => decide (r.day_type = d))))))

/-- `Series.idxmax` over the pairs (row, congestion value): the first pair
attaining the maximum value. -/
def pickMaxFirst : List (Row × ℚ) → Option (Row × ℚ)
  | [] => none
  | x :: xs =>
    match pickMaxFirst xs with
    | none => some x
    | some y => if x.2 < y.2 then some y else some x

/-- `Series.idxmin`: the first pair attaining the minimum value. -/
def pickMinFirst : List (Row × ℚ) → Option (Row × ℚ)
  | [] => none
  | x :: xs =>
    match pickMinFirst xs with
    | none => some x
    | some y => if y.2 < x.2 then some y else some x

/-- `group[group["congestion"] > 0]` together with the extracted value: the
rows whose congestion is a positive number (NaN compares false). -/
def posPairs (rs : List Row) : List (Row × ℚ) :=
  rs.filterMap (fun r =>
    match r.congestion with
    | some q => if 0 < q then some (r, q) else none
    | none => none)

/-- One row of the `calc_peak_times` output. -/
structure PeakRow where
  day_type : String
  line : String
  station_name : String
  direction : String
  peak_time : String
  peak_congestion : ℚ
  least_time : String
  least_congestion : ℚ
  avg_congestion : PyFloat
  variance : PyFloat
deriving DecidableEq

/-- `calc_peak_times` of src/src/metrics.py: per 4-key group, peak/least over
the zero-filtered rows (a group with none is skipped), mean and sample
variance over the unfiltered group. -/
def calc_peak_times (df : List Row) : List PeakRow :=
  (groupKeys4 df).filterMap (fun k =>
    let group := rowsOf4 k df
    let gf := posPairs group
    match pickMaxFirst gf, pickMinFirst gf with
    | some pk, some ls => some
      { day_type := k.1, line := k.2.1, station_name := k.2.2.1, direction := k.2.2.2,
        peak_time := pk.1.time_slot, peak_congestion := pk.2,
        least_time := ls.1.time_slot, least_congestion := ls.2,
        avg_congestion := listMean (colVals group), variance := listVar (colVals group) }
    | _, _ => none)

/-! ## Transform stage (src/src/transform.py) -/

/-- COLUMN_MAPPING of src/src/transform.py (Korean identifier label →
canonical name). -/
def COLUMN_MAPPING : List (String × String) :=
  [("요일구분", "day_type"), ("호선", "line"), ("역번호", "station_code"),
   ("출발역", "station_name"), ("상하구분", "direction")]

/-- Numeric value of a list of decimal digit characters (`int` on the matched
group). -/
def digitsVal (ds : List Char) : ℕ :=
  ds.foldl (fun n c => 10 * n + (c.toNat - Char.toNat '0')) 0

/-- Python `f"{n:02d}"`: decimal, zero padded on the left to width two. -/
def pad2 (n : ℕ) : String :=
  if n < 10 then "0" ++ toString n else toString n

/-- `standardize_time_column` of src/src/transform.py.  `re.match` of
`(\d+)시(\d+)분` anchors at the start only: a maximal nonempty digit run, the
character 시, a maximal nonempty digit run, the character 분 (anything may
follow).  On a match the two groups are formatted `f"{h:02d}:{m:02d}"`. -/
def standardize_time_chars (cs : List Char) : Option String :=
  let d1 := cs.takeWhile Char.isDigit
  match cs.dropWhile Char.isDigit with
  | c :: rest =>
    if d1.isEmpty then none
    else if c = '시' then
      let d2 := rest.takeWhile Char.isDigit
      match rest.dropWhile Char.isDigit with
      | c2 :: _ =>
        if d2.isEmpty then none
        else if c2 = '분' then some (pad2 (digitsVal d1) ++ ":" ++ pad2 (digitsVal d2))
        else none
      | [] => none
    else none
  | [] => none

def standardize_time_column (col_name : String) : Option String :=
  standardize_time_chars col_name.data

/-- The renaming applied to a single header by `standardize_columns`:
identifier lookup first, then the time pattern, otherwise unchanged. -/
def rename_one (col : String) : String :=
  match (COLUMN_MAPPING.find? (fun p => decide (p.1 = col))).map (fun p => p.2) with
  | some new => new
  | none =>
    match standardize_time_column col with
    | some t => t
    | none => col

/-- `standardize_columns` of src/src/transform.py, restricted to its effect on
the header list (the cell data is untouched by a column rename). -/
def standardize_columns (cols : List String) : List String :=
  cols.map rename_one

/-- A raw cell of the wide table: a number (possibly NaN) or a text value.
Text is kept as a character list. -/
inductive RawCell where
  | num (v : PyFloat)
  | str (s : List Char)
deriving DecidableEq

/-- A wide-format table: header names plus row-major cells. -/
structure WideTable where
  cols : List String
  rows : List (List RawCell)

/-- The identifier columns that `wide_to_long` recognises, in its fixed order. -/
def id_cols_master : List String :=
  ["day_type", "line", "station_code", "station_name", "direction"]

def wide_id_cols (df : WideTable) : List String :=
  id_cols_master.filter (fun c => decide (c ∈ df.cols))

def wide_time_cols (df : WideTable) : List String :=
  df.cols.filter (fun c => decide (c ∉ wide_id_cols df))

/-- Cell of a row under a header name (first matching column). -/
def cellAt (cols : List String) (row : List RawCell) (c : String) : RawCell :=
  match (cols.zip row).find? (fun p => decide (p.1 = c)) with
  | some p => p.2
  | none => RawCell.num none

/-- One output record of `melt`: the identifier columns with their values,
plus `time_slot` (the melted column name) and `congestion` (its cell). -/
structure MeltRow where
  ids : List (String × RawCell)
  time_slot : String
  congestion : RawCell
deriving DecidableEq

/-- `wide_to_long` of src/src/transform.py: `df.melt(id_vars, value_vars,
var_name="time_slot", value_name="congestion")`.  pandas melt stacks one block
per value column, each block containing every original row in order. -/
def wide_to_long (df : WideTable) : List MeltRow :=
  (wide_time_cols df).flatMap (fun c =>
    df.rows.map (fun row =>
      { ids := (wide_id_cols df).map (fun i => (i, cellAt df.cols row i)),
        time_slot := c, congestion := cellAt df.cols row c }))

/-- Python `str.strip` on a character list: whitespace removed at both ends. -/
def trimL (s : List Char) : List Char :=
  ((s.dropWhile Char.isWhitespace).reverse.dropWhile Char.isWhitespace).reverse

/-- `.str.replace(r"\s+", " ", regex=True)`: every maximal run of whitespace
becomes one space.  The flag records whether the previous character belonged
to a whitespace run already replaced. -/
def collapseAux : Bool → List Char → List Char
  | _, [] => []
  | inRun, c :: cs =>
    if Char.isWhitespace c then
      if inRun then collapseAux true cs else ' ' :: collapseAux true cs
    else c :: collapseAux false cs

def collapseWs (s : List Char) : List Char := collapseAux false s

/-- `pd.to_numeric(..., errors="coerce")` on one text cell, simplified grammar:
optional sign, then digits with an optional fractional part (`"12"`, `"-3.5"`,
`"7."`, `".25"`).  Exponent forms and the `inf`/`nan` literals are treated
as unparsable; congestion readings are finite decimals. -/
def parseUnsigned (s : List Char) : Option ℚ :=
  let ip := s.takeWhile Char.isDigit
  match s.dropWhile Char.isDigit with
  | [] => if ip.isEmpty then none else some (digitsVal ip)
  | '.' :: fp =>
    if fp.all Char.isDigit && !(ip.isEmpty && fp.isEmpty) then
      some ((digitsVal ip : ℚ) + (digitsVal fp : ℚ) / ((10 : ℚ) ^ fp.length))
    else none
  | _ => none

def parseNum (s : List Char) : Option ℚ :=
  match s with
  | '-' :: rest => (parseUnsigned rest).map (fun q => -q)
  | _ => parseUnsigned s

/-- pandas stores a column as object dtype when any cell is text. -/
def isObjectCol (col : List RawCell) : Bool :=
  col.any (fun c => match c with | RawCell.str _ => true | RawCell.num _ => false)

/-- `.astype(str).str.strip()` on one cell of an object column.  On a
numerically stored cell the later `pd.to_numeric` undoes the stringification
(`float(repr(x)) == x`, and `"nan"` parses back to NaN), so the composite is
the identity there and the embedding folds that identity into this step. -/
def stripCell : RawCell → RawCell
  | RawCell.str s => RawCell.str (trimL s)
  | RawCell.num v => RawCell.num v

/-- `pd.to_numeric(col, errors="coerce")` on one cell. -/
def toNumericCell : RawCell → RawCell
  | RawCell.num v => RawCell.num v
  | RawCell.str s => RawCell.num (parseNum s)

/-- `df.loc[df["congestion"] < 0, "congestion"] = np.nan` on one cell: a NaN
comparison is false, so only genuine negative numbers are rewritten. -/
def maskNegative : RawCell → RawCell
  | RawCell.num (some q) => if q < 0 then RawCell.num none else RawCell.num (some q)
  | c => c

/-- The congestion column transform of `clean_congestion_values`: conditional
strip (only when the column is object dtype), numeric coercion, negative
masking.  The `> 200` outliers are only counted and logged, never modified. -/
def clean_congestion_col (col : List RawCell) : List RawCell :=
  (((if isObjectCol col then col.map stripCell else col).map toNumericCell).map maskNegative)

/-- The long table at the cleansing stage, column-wise: the two columns the
cleansers touch (each possibly absent), and the untouched remainder. -/
structure CleanTable where
  congestion : Option (List RawCell)
  station_name : Option (List RawCell)
  other : List (String × List RawCell)
deriving DecidableEq

/-- `clean_congestion_values` of src/src/transform.py: copy, skip when the
column is absent, otherwise rewrite only the congestion column. -/
def clean_congestion_values (t : CleanTable) : CleanTable :=
  { t with congestion := t.congestion.map clean_congestion_col }

/-- `str(x)` for a numeric cell under `.astype(str)`: NaN prints as "nan".
Finite values print via a simplified decimal/rational writer; only the NaN
case is observable in the verified properties. -/
def numToStr (v : PyFloat) : List Char :=
  match v with
  | none => ['n', 'a', 'n']
  | some q => (toString q).data

/-- The station_name column transform of `clean_station_names`:
`.astype(str).str.strip()` then whitespace-run collapsing. -/
def clean_station_col (col : List RawCell) : List RawCell :=
  col.map (fun c =>
    match c with
    | RawCell.str s => RawCell.str (collapseWs (trimL s))
    | RawCell.num v => RawCell.str (collapseWs (trimL (numToStr v))))

/-- `clean_station_names` of src/src/transform.py. -/
def clean_station_names (t : CleanTable) : CleanTable :=
  { t with station_name := t.station_name.map clean_station_col }

/-- The congestion-statistics part of `validate_data` that the verified
properties mention (`std`/`median` omitted: irrational / order statistics not
named by any claim). -/
structure CongestionReport where
  count : ℕ
  mean : PyFloat
  minv : PyFloat
  maxv : PyFloat
  zero_ratio : PyFloat
deriving DecidableEq

/-- numpy true division of the two counts in `validate_data`; `0 / 0` is NaN
(a RuntimeWarning, not an exception).  The dividend never exceeds the divisor
here, so the `x / 0 = inf` case with `x > 0` is unreachable. -/
def npDivCounts (a b : ℕ) : PyFloat :=
  if b = 0 then none else some ((a : ℚ) / (b : ℚ))

/-- The congestion block of `validate_data` of src/src/transform.py:
statistics over `dropna()`, and `zero_ratio = (congestion == 0).sum() /
len(congestion)`. -/
def validate_congestion (col : List PyFloat) : CongestionReport :=
  let congestion := col.filterMap id
  let zero_count := (congestion.filter (fun q => decide (q = 0))).length
  { count := congestion.length, mean := listMean congestion,
    minv := congestion.min?, maxv := congestion.max?,
    zero_ratio := npDivCounts zero_count congestion.length }

/-! ## Helper lemmas -/

theorem mem_uniqFirst {α : Type} [DecidableEq α] {a : α} {l : List α} :
    a ∈ uniqFirst l ↔ a ∈ l := by
  simp [uniqFirst]

theorem nodup_uniqFirst {α : Type} [DecidableEq α] (l : List α) : (uniqFirst l).Nodup := by
  simpa [uniqFirst] using l.reverse.nodup_dedup

/-! ## C3: the congestion-level classifier -/

theorem severity_yeoyu : severity "여유" = 0 := rfl
theorem severity_botong : severity "보통" = 1 := rfl
theorem severity_honjap : severity "혼잡" = 2 := rfl
theorem severity_maeu : severity "매우혼잡" = 3 := rfl

/-- Closed form of the classifier on a non-NaN rational input. -/
theorem gcl_eq (q : ℚ) :
    get_congestion_level (some q) =
      if q < 0 then "매우혼잡"
      else if q < 30 then "여유"
      else if q < 60 then "보통"
      else if q < 90 then "혼잡"
      else "매우혼잡" := by
  simp only [get_congestion_level, CONGESTION_LEVELS, inBucket, List.find?,
    Bool.and_eq_true, decide_eq_true_eq]
  rcases lt_or_le q 0 with h0 | h0
  · rw [if_pos h0]
    have : ¬ (0:ℚ) ≤ q := not_le.2 h0
    simp only [decide_eq_false this, Bool.false_and]
    have h30 : ¬ (30:ℚ) ≤ q := fun h => this (le_trans (by norm_num) h)
    have h60 : ¬ (60:ℚ) ≤ q := fun h => this (le_trans (by norm_num) h)
    have h90 : ¬ (90:ℚ) ≤ q := fun h => this (le_trans (by norm_num) h)
    simp [decide_eq_false h30, decide_eq_false h60, decide_eq_false h90]
  · rw [if_neg (not_lt.2 h0)]
    rcases lt_or_le q 30 with h30 | h30
    · simp only [decide_eq_true h0, decide_eq_true h30, Bool.and_self, Bool.true_and]
      rw [if_pos h30]
    · rw [if_neg (not_lt.2 h30)]
      have : decide (q < 30) = false := decide_eq_false (not_lt.2 h30)
      rcases lt_or_le q 60 with h60 | h60
      · simp only [decide_eq_true h0, this, decide_eq_true h30, decide_eq_true h60,
          Bool.true_and, Bool.and_true, Bool.and_false, Bool.false_and]
        rw [if_pos h60]
      · rw [if_neg (not_lt.2 h60)]
        have h60f : decide (q < 60) = false := decide_eq_false (not_lt.2 h60)
        rcases lt_or_le q 90 with h90 | h90
        · simp only [decide_eq_true h0, this, h60f,
            decide_eq_true ((by norm_num : (30:ℚ) ≤ 60).trans h60),
            decide_eq_true ((by norm_num : (60:ℚ) ≤ 60).trans h60), decide_eq_true h90,
            Bool.true_and, Bool.and_true, Bool.and_false, Bool.false_and]
          rw [if_pos h90]
        · rw [if_neg (not_lt.2 h90)]
          have h90f : decide (q < 90) = false := decide_eq_false (not_lt.2 h90)
          simp [this, h60f, h90f,
            decide_eq_true ((by norm_num : (90:ℚ) ≤ 90).trans h90)]

/-- Severity of the classifier output on a nonnegative input. -/
theorem severity_gcl (q : ℚ) (hq : 0 ≤ q) :
    severity (get_congestion_level (some q)) =
      if q < 30 then 0 else if q < 60 then 1 else if q < 90 then 2 else 3 := by
  rw [gcl_eq, if_neg (not_lt.2 hq)]
  split_ifs <;> simp [severity_yeoyu, severity_botong, severity_honjap, severity_maeu]

/-- C3: `get_congestion_level` is total on rational inputs and classifies by
the four half-open buckets [0,30), [30,60), [60,90), [90,inf); the boundaries
30 and 90 belong to the higher bucket and 29.999 to the lower; severity is
monotone in the input on the nonnegative domain; NaN and negative inputs fall
through every bucket and return the defensive "매우혼잡" instead of raising. -/
theorem c3_classifier_spec :
    (∀ q : ℚ, 0 ≤ q → get_congestion_level (some q) =
      (if q < 30 then "여유" else if q < 60 then "보통"
       else if q < 90 then "혼잡" else "매우혼잡")) ∧
    get_congestion_level (some 30) = "보통" ∧
    get_congestion_level (some (29999/1000 : ℚ)) = "여유" ∧
    get_congestion_level (some 90) = "매우혼잡" ∧
    (∀ x y : ℚ, 0 ≤ x → x ≤ y →
      severity (get_congestion_level (some x)) ≤ severity (get_congestion_level (some y))) ∧
    get_congestion_level none = "매우혼잡" ∧
    (∀ q : ℚ, q < 0 → get_congestion_level (some q) = "매우혼잡") := by
  refine ⟨?_, ?_, ?_, ?_, ?_, rfl, ?_⟩
  · intro q hq
    rw [gcl_eq, if_neg (not_lt.2 hq)]
  · rw [gcl_eq]; norm_num
  · rw [gcl_eq]; norm_num
  · rw [gcl_eq]; norm_num
  · intro x y hx hxy
    rw [severity_gcl x hx, severity_gcl y (hx.trans hxy)]
    split_ifs <;> linarith
  · intro q hq
    rw [gcl_eq, if_pos hq]

/-- Witness for C3 at concrete inputs. -/
theorem c3_classifier_spec_witness :
    get_congestion_level (some 45) = "보통" ∧
    severity (get_congestion_level (some 10)) ≤ severity (get_congestion_level (some 95)) ∧
    get_congestion_level (some (-1)) = "매우혼잡" := by
  refine ⟨?_, ?_, ?_⟩
  · rw [c3_classifier_spec.1 45 (by norm_num)]; norm_num
  · exact c3_classifier_spec.2.2.2.2.1 10 95 (by norm_num) (by norm_num)
  · exact c3_classifier_spec.2.2.2.2.2.2 (-1) (by norm_num)

/-! ## C5: zero_ratio in validate_data -/

/-- C5: `validate_data` computes `zero_ratio` as (number of exactly-zero
non-missing congestion values) / (number of non-missing values); when no
non-missing value exists the division `0 / 0` yields NaN (numpy emits a
RuntimeWarning, not an exception), so the report carries an undefined
`zero_ratio` instead of raising. -/
theorem c5_zero_ratio_spec (col : List PyFloat) :
    ((col.filterMap id).length ≠ 0 →
      (validate_congestion col).zero_ratio =
        some ((((col.filterMap id).filter (fun q => decide (q = 0))).length : ℚ) /
          ((col.filterMap id).length : ℚ))) ∧
    ((col.filterMap id).length = 0 → (validate_congestion col).zero_ratio = none) := by
  constructor <;> intro h
  · simp [validate_congestion, npDivCounts, h]
  · simp [validate_congestion, npDivCounts, h]

/-- Witness for C5: a column with values 0, 5 and one missing cell has
zero_ratio 1/2; the all-missing column has an undefined zero_ratio. -/
theorem c5_zero_ratio_spec_witness :
    (validate_congestion [some 0, some 5, none]).zero_ratio = some ((1 : ℚ) / 2) ∧
    (validate_congestion [none]).zero_ratio = none := by
  constructor
  · have h := (c5_zero_ratio_spec [some 0, some 5, none]).1 (by decide)
    rw [h]
    norm_num [List.filterMap_cons, List.filter]
  · exact (c5_zero_ratio_spec [none]).2 (by decide)

/-! ## C1: behaviour of the five aggregations on an empty input table -/

/-- C1 counterexample: on the empty long table (zero rows, schema present)
`calc_top_n_congested` does not return an empty table: the per-day loop body
never runs, and `pd.concat` of an empty list raises
`ValueError: No objects to concatenate`. -/
theorem c1_counterexample :
    calc_top_n_congested ([] : List Row) 10 = Except.error "No objects to concatenate" := rfl

/-- C1 amended: on the empty input table, `calc_line_time_avg`,
`calc_station_time_avg` and `calc_peak_times` return empty tables without
error, while both top-N functions raise ValueError from `pd.concat([])`. -/
theorem c1_empty_input_spec :
    calc_line_time_avg ([] : List Row) = [] ∧
    calc_station_time_avg ([] : List Row) = [] ∧
    calc_peak_times ([] : List Row) = [] ∧
    calc_top_n_congested ([] : List Row) 10 = Except.error "No objects to concatenate" ∧
    calc_top_n_least_congested ([] : List Row) 10 = Except.error "No objects to concatenate" :=
  ⟨rfl, rfl, rfl, rfl, rfl⟩

/-! ## C10: missing station names become the string "nan" -/

/-- C10: `clean_station_names` applies `.astype(str)` to the whole column
before trimming, so a missing (NaN) station name does not stay missing: it
becomes the literal string "nan", an ordinary string cell that grouping and
reporting treat like any other name (every cleaned cell is a string). -/
theorem c10_nan_station_name (t : CleanTable) (col : List RawCell)
    (h : t.station_name = some col) :
    (clean_station_names t).station_name = some (clean_station_col col) ∧
    (∀ i : ℕ, col[i]? = some (RawCell.num none) →
      (clean_station_col col)[i]? = some (RawCell.str "nan".data)) ∧
    (∀ c ∈ clean_station_col col, ∃ s, c = RawCell.str s) := by
  refine ⟨by simp [clean_station_names, h], ?_, ?_⟩
  · intro i hi
    simp only [clean_station_col, List.getElem?_map, hi, Option.map_some]
    rfl
  · intro c hc
    simp only [clean_station_col, List.mem_map] at hc
    obtain ⟨a, ⟨_, rfl⟩⟩ := hc
    cases a <;> exact ⟨_, rfl⟩

/-- Witness for C10 at a one-cell column holding NaN. -/
theorem c10_nan_station_name_witness :
    (clean_station_names ⟨none, some [RawCell.num none], []⟩).station_name =
      some (clean_station_col [RawCell.num none]) ∧
    (clean_station_col [RawCell.num none])[0]? = some (RawCell.str "nan".data) := by
  have h := c10_nan_station_name ⟨none, some [RawCell.num none], []⟩ [RawCell.num none] rfl
  exact ⟨h.1, h.2.1 0 rfl⟩

/-! ## C8: congestion value cleansing -/

/-- The composite effect of `clean_congestion_values` on one congestion cell:
text is trimmed and coerced (unparsable text and NaN give NaN), then negative
numbers are masked to NaN. -/
def cleanCell (c : RawCell) : RawCell :=
  maskNegative (toNumericCell (stripCell c))

/-- The column transform is the per-cell transform mapped over the column:
when the column is object dtype every cell goes through the strip, and
otherwise no cell is text so the strip is vacuous. -/
theorem clean_congestion_col_eq_map (col : List RawCell) :
    clean_congestion_col col = col.map cleanCell := by
  unfold clean_congestion_col
  by_cases h : isObjectCol col = true
  · rw [if_pos h, List.map_map, List.map_map]
    rfl
  · rw [if_neg h, List.map_map]
    refine List.map_congr_left (fun c hc => ?_)
    cases c with
    | num v => rfl
    | str s =>
      exfalso
      exact h (by simp only [isObjectCol, List.any_eq_true]; exact ⟨_, hc, rfl⟩)

/-- C8: the congestion cleanser (a) strips surrounding whitespace off text
cells, (b) coerces to numeric with unparsable text becoming missing (total,
never raising), (c) rewrites negative numbers to missing, (d) leaves values
above 200 untouched (outliers are only counted), and a table without the
congestion column passes through unchanged. -/
theorem c8_clean_congestion_spec (t : CleanTable) :
    (∀ col, t.congestion = some col →
      (clean_congestion_values t).congestion = some (col.map cleanCell)) ∧
    (∀ s : List Char, parseNum (trimL s) = none →
      cleanCell (RawCell.str s) = RawCell.num none) ∧
    (∀ (s : List Char) (q : ℚ), parseNum (trimL s) = some q → ¬q < 0 →
      cleanCell (RawCell.str s) = RawCell.num (some q)) ∧
    (∀ q : ℚ, q < 0 → cleanCell (RawCell.num (some q)) = RawCell.num none) ∧
    (∀ q : ℚ, 200 < q → cleanCell (RawCell.num (some q)) = RawCell.num (some q)) ∧
    (t.congestion = none → clean_congestion_values t = t) := by
  refine ⟨?_, ?_, ?_, ?_, ?_, ?_⟩
  · intro col h
    simp [clean_congestion_values, h, clean_congestion_col_eq_map]
  · intro s hs
    simp [cleanCell, stripCell, toNumericCell, hs, maskNegative]
  · intro s q hs hq
    simp [cleanCell, stripCell, toNumericCell, hs, maskNegative, hq]
  · intro q hq
    simp [cleanCell, stripCell, toNumericCell, maskNegative, hq]
  · intro q hq
    have h0 : ¬q < 0 := by linarith
    simp [cleanCell, stripCell, toNumericCell, maskNegative, h0]
  · intro h
    cases t with
    | mk congestion station other => simp_all [clean_congestion_values]

/-- Witness for C8 at concrete cells: `" 45 "` parses to 45, `"abc"` becomes
missing, -3 becomes missing, 250 is left unchanged, and a table without the
congestion column passes through. -/
theorem c8_clean_congestion_spec_witness :
    (clean_congestion_values ⟨some [RawCell.str " 45 ".data], none, []⟩).congestion =
      some ([RawCell.str " 45 ".data].map cleanCell) ∧
    cleanCell (RawCell.str "abc".data) = RawCell.num none ∧
    cleanCell (RawCell.str " 45 ".data) = RawCell.num (some 45) ∧
    cleanCell (RawCell.num (some (-3))) = RawCell.num none ∧
    cleanCell (RawCell.num (some 250)) = RawCell.num (some 250) ∧
    clean_congestion_values ⟨none, some [], []⟩ = ⟨none, some [], []⟩ := by
  refine ⟨(c8_clean_congestion_spec _).1 [RawCell.str " 45 ".data] rfl,
    (c8_clean_congestion_spec ⟨none, none, []⟩).2.1 "abc".data rfl,
    (c8_clean_congestion_spec ⟨none, none, []⟩).2.2.1 " 45 ".data 45 ?_ (by norm_num),
    (c8_clean_congestion_spec ⟨none, none, []⟩).2.2.2.1 (-3) (by norm_num),
    (c8_clean_congestion_spec ⟨none, none, []⟩).2.2.2.2.1 250 (by norm_num),
    (c8_clean_congestion_spec ⟨none, some [], []⟩).2.2.2.2.2 rfl⟩
  show parseNum (trimL " 45 ".data) = some 45
  decide

/-! ## C9: idempotence of the cleansing stage -/

/-- The value carried by a congestion cell after coercion. -/
def cellVal : RawCell → PyFloat
  | RawCell.num v => v
  | RawCell.str s => parseNum (trimL s)

/-- Negative masking on the coerced value. -/
def maskV (v : PyFloat) : PyFloat :=
  match v with
  | none => none
  | some q => if q < 0 then none else some q

theorem cleanCell_eq (c : RawCell) : cleanCell c = RawCell.num (maskV (cellVal c)) := by
  cases c with
  | num v =>
    cases v with
    | none => rfl
    | some q => by_cases h : q < 0 <;>
        simp [cleanCell, stripCell, toNumericCell, maskNegative, maskV, cellVal, h]
  | str s =>
    cases hp : parseNum (trimL s) with
    | none => simp [cleanCell, stripCell, toNumericCell, hp, maskNegative, maskV, cellVal]
    | some q => by_cases h : q < 0 <;>
        simp [cleanCell, stripCell, toNumericCell, hp, maskNegative, maskV, cellVal, h]

theorem maskV_idem (v : PyFloat) : maskV (maskV v) = maskV v := by
  cases v with
  | none => rfl
  | some q => by_cases h : q < 0 <;> simp [maskV, h]

theorem cleanCell_idem (c : RawCell) : cleanCell (cleanCell c) = cleanCell c := by
  rw [cleanCell_eq c, cleanCell_eq (RawCell.num (maskV (cellVal c)))]
  simp [cellVal, maskV_idem]

theorem clean_congestion_col_idem (col : List RawCell) :
    clean_congestion_col (clean_congestion_col col) = clean_congestion_col col := by
  simp only [clean_congestion_col_eq_map, List.map_map]
  exact List.map_congr_left fun c _ => cleanCell_idem c

/-- Adjacent output characters of the collapse are never both whitespace. -/
def noWsPair (a b : Char) : Prop := a.isWhitespace = false ∨ b.isWhitespace = false

theorem collapseAux_cons_ws_false {c : Char} (h : c.isWhitespace = true) (cs : List Char) :
    collapseAux false (c :: cs) = ' ' :: collapseAux true cs := by
  simp [collapseAux, h]

theorem collapseAux_cons_ws_true {c : Char} (h : c.isWhitespace = true) (cs : List Char) :
    collapseAux true (c :: cs) = collapseAux true cs := by
  simp [collapseAux, h]

theorem collapseAux_cons_nws {b : Bool} {c : Char} (h : c.isWhitespace = false) (cs : List Char) :
    collapseAux b (c :: cs) = c :: collapseAux false cs := by
  cases b <;> simp [collapseAux, h]

theorem collapseAux_ws_space : ∀ (b : Bool) (s : List Char), ∀ c ∈ collapseAux b s,
    c.isWhitespace = true → c = ' '
  | _, [] => by simp [collapseAux]
  | b, c :: cs => by
    intro d hd hw
    by_cases h : c.isWhitespace
    · cases b with
      | true =>
        rw [collapseAux_cons_ws_true h] at hd
        exact collapseAux_ws_space true cs d hd hw
      | false =>
        rw [collapseAux_cons_ws_false h] at hd
        rcases List.mem_cons.1 hd with h1 | h1
        · exact h1
        · exact collapseAux_ws_space true cs d h1 hw
    · rw [collapseAux_cons_nws (by simpa using h)] at hd
      rcases List.mem_cons.1 hd with h1 | h1
      · subst h1; exact absurd hw (by simpa using h)
      · exact collapseAux_ws_space false cs d h1 hw

theorem collapseAux_true_head : ∀ (s : List Char) (c : Char),
    (collapseAux true s).head? = some c → c.isWhitespace = false
  | [], c => by simp [collapseAux]
  | d :: ds, c => by
    by_cases h : d.isWhitespace
    · rw [collapseAux_cons_ws_true h]
      exact collapseAux_true_head ds c
    · rw [collapseAux_cons_nws (by simpa using h), List.head?_cons]
      intro hc
      cases hc
      simpa using h

theorem collapseAux_chain : ∀ (b : Bool) (s : List Char), (collapseAux b s).Chain' noWsPair
  | _, [] => by simp [collapseAux]
  | b, c :: cs => by
    by_cases h : c.isWhitespace
    · cases b with
      | true =>
        rw [collapseAux_cons_ws_true h]
        exact collapseAux_chain true cs
      | false =>
        rw [collapseAux_cons_ws_false h]
        refine List.chain'_cons'.2 ⟨fun d hd => ?_, collapseAux_chain true cs⟩
        exact Or.inr (collapseAux_true_head cs d hd)
    · rw [collapseAux_cons_nws (by simpa using h)]
      refine List.chain'_cons'.2 ⟨fun d _ => Or.inl (by simpa using h), collapseAux_chain false cs⟩

theorem collapseAux_eq_nil : ∀ (b : Bool) (s : List Char), collapseAux b s = [] →
    ∀ c ∈ s, c.isWhitespace = true
  | _, [] => by simp
  | b, c :: cs => by
    intro hnil d hd
    by_cases h : c.isWhitespace
    · cases b with
      | true =>
        rw [collapseAux_cons_ws_true h] at hnil
        rcases List.mem_cons.1 hd with h1 | h1
        · subst h1; exact h
        · exact collapseAux_eq_nil true cs hnil d h1
      | false => rw [collapseAux_cons_ws_false h] at hnil; cases hnil
    · rw [collapseAux_cons_nws (by simpa using h)] at hnil; cases hnil

theorem collapseAux_false_id : ∀ (s : List Char),
    (∀ c ∈ s, c.isWhitespace = true → c = ' ') → s.Chain' noWsPair →
    collapseAux false s = s
  | [] => fun _ _ => rfl
  | c :: cs => fun hws hch => by
    by_cases h : c.isWhitespace
    · have hc : c = ' ' := hws c (List.mem_cons_self _ _) h
      rw [collapseAux_cons_ws_false h]
      cases cs with
      | nil => simp [collapseAux, hc]
      | cons d ds =>
        have hd : d.isWhitespace = false := by
          rcases (List.chain'_cons'.1 hch).1 d rfl with h1 | h1
          · rw [h1] at h; cases h
          · exact h1
        have heq : collapseAux true (d :: ds) = collapseAux false (d :: ds) := by
          rw [collapseAux_cons_nws hd, collapseAux_cons_nws hd]
        rw [heq, collapseAux_false_id (d :: ds)
          (fun e he hwe => hws e (List.mem_cons_of_mem _ he) hwe) hch.tail, hc]
    · rw [collapseAux_cons_nws (by simpa using h)]
      rw [collapseAux_false_id cs
        (fun e he hwe => hws e (List.mem_cons_of_mem _ he) hwe) hch.tail]

theorem collapseWs_idem (s : List Char) : collapseWs (collapseWs s) = collapseWs s :=
  collapseAux_false_id _ (collapseAux_ws_space false s) (collapseAux_chain false s)

theorem dropWhile_ws_eq_self (s : List Char)
    (h : ∀ c, s.head? = some c → c.isWhitespace = false) :
    s.dropWhile Char.isWhitespace = s := by
  cases s with
  | nil => rfl
  | cons c cs =>
    rw [List.dropWhile_cons_of_neg]
    simpa using h c rfl

theorem trimL_eq_self (z : List Char)
    (h1 : ∀ c, z.head? = some c → c.isWhitespace = false)
    (h2 : ∀ c, z.getLast? = some c → c.isWhitespace = false) : trimL z = z := by
  unfold trimL
  rw [dropWhile_ws_eq_self z h1,
    dropWhile_ws_eq_self z.reverse (fun c hc => h2 c (by rwa [List.head?_reverse] at hc)),
    List.reverse_reverse]

theorem head?_trimL (x : List Char) :
    ∀ c, (trimL x).head? = some c → c.isWhitespace = false := by
  intro c hc
  unfold trimL at hc
  rw [List.head?_reverse] at hc
  cases hx : x.dropWhile Char.isWhitespace with
  | nil => rw [hx] at hc; simp at hc
  | cons d ds =>
    have hd : d.isWhitespace = false := by
      have := List.head?_dropWhile_not Char.isWhitespace x
      rw [hx] at this
      simpa using this
    rw [hx, List.reverse_cons, List.dropWhile_append] at hc
    split at hc
    · rw [List.dropWhile_cons_of_neg (by simpa using hd)] at hc
      simp only [List.getLast?_singleton, Option.some_inj] at hc
      subst hc; exact hd
    · rw [List.getLast?_concat] at hc
      cases hc; exact hd

theorem getLast?_trimL (x : List Char) :
    ∀ c, (trimL x).getLast? = some c → c.isWhitespace = false := by
  intro c hc
  unfold trimL at hc
  rw [List.getLast?_reverse] at hc
  cases hw : ((x.dropWhile Char.isWhitespace).reverse.dropWhile Char.isWhitespace) with
  | nil => rw [hw] at hc; simp at hc
  | cons d ds =>
    have := List.head?_dropWhile_not Char.isWhitespace (x.dropWhile Char.isWhitespace).reverse
    rw [hw] at this hc
    simp only [List.head?_cons, Option.some_inj] at hc
    subst hc
    simpa using this

theorem collapseAux_false_head (t : List Char)
    (h : ∀ c, t.head? = some c → c.isWhitespace = false) :
    ∀ c, (collapseAux false t).head? = some c → c.isWhitespace = false := by
  cases t with
  | nil => intro c hc; simp [collapseAux] at hc
  | cons d ds =>
    have hd : d.isWhitespace = false := h d rfl
    intro c hc
    rw [collapseAux_cons_nws hd, List.head?_cons, Option.some_inj] at hc
    subst hc; exact hd

theorem collapseAux_getLast : ∀ (b : Bool) (t : List Char),
    (∀ c, t.getLast? = some c → c.isWhitespace = false) →
    ∀ c, (collapseAux b t).getLast? = some c → c.isWhitespace = false
  | _, [] => by intro _ c hc; simp [collapseAux] at hc
  | b, c :: cs => by
    intro h d hd
    by_cases hws : c.isWhitespace
    · cases cs with
      | nil => exact absurd (h c rfl) (by simpa using hws)
      | cons e es =>
        have h2 : ∀ f, (e :: es).getLast? = some f → f.isWhitespace = false := by
          intro f hf
          exact h f (by rwa [List.getLast?_cons_cons])
        cases b with
        | true =>
          rw [collapseAux_cons_ws_true hws] at hd
          exact collapseAux_getLast true (e :: es) h2 d hd
        | false =>
          rw [collapseAux_cons_ws_false hws] at hd
          cases hcol : collapseAux true (e :: es) with
          | nil =>
            exfalso
            have hall := collapseAux_eq_nil true (e :: es) hcol
            have hmem := List.getLast_mem (show (e :: es) ≠ [] by simp)
            have hlast := h2 _ (List.getLast?_eq_getLast (e :: es) (by simp))
            rw [hall _ hmem] at hlast
            cases hlast
          | cons f fs =>
            rw [hcol, List.getLast?_cons_cons, ← hcol] at hd
            exact collapseAux_getLast true (e :: es) h2 d hd
    · have hc : c.isWhitespace = false := by simpa using hws
      cases cs with
      | nil =>
        rw [collapseAux_cons_nws hc] at hd
        simp only [collapseAux, List.getLast?_singleton, Option.some_inj] at hd
        subst hd; exact hc
      | cons e es =>
        have h2 : ∀ f, (e :: es).getLast? = some f → f.isWhitespace = false := by
          intro f hf
          exact h f (by rwa [List.getLast?_cons_cons])
        rw [collapseAux_cons_nws hc] at hd
        cases hcol : collapseAux false (e :: es) with
        | nil =>
          rw [hcol, List.getLast?_singleton, Option.some_inj] at hd
          subst hd; exact hc
        | cons f fs =>
          rw [hcol, List.getLast?_cons_cons, ← hcol] at hd
          exact collapseAux_getLast false (e :: es) h2 d hd

/-- One pass of trim-and-collapse is a fixed point of a second pass. -/
theorem station_cell_idem (x : List Char) :
    collapseWs (trimL (collapseWs (trimL x))) = collapseWs (trimL x) := by
  have htrim : trimL (collapseWs (trimL x)) = collapseWs (trimL x) := by
    apply trimL_eq_self
    · exact collapseAux_false_head _ (head?_trimL x)
    · exact collapseAux_getLast false _ (getLast?_trimL x)
  rw [htrim, collapseWs_idem]

theorem clean_station_col_idem (col : List RawCell) :
    clean_station_col (clean_station_col col) = clean_station_col col := by
  simp only [clean_station_col, List.map_map]
  refine List.map_congr_left fun c _ => ?_
  cases c <;> simp only [Function.comp] <;> rw [station_cell_idem]

/-- C9: the cleansing stage (`clean_congestion_values` then
`clean_station_names`) is idempotent: a second application of the pair
changes nothing. -/
theorem c9_cleansing_idempotent (t : CleanTable) :
    clean_station_names (clean_congestion_values
      (clean_station_names (clean_congestion_values t))) =
    clean_station_names (clean_congestion_values t) := by
  cases t with
  | mk congestion station other =>
    simp only [clean_congestion_values, clean_station_names]
    cases congestion with
    | none => cases station with
      | none => rfl
      | some cs => simp [clean_station_col_idem]
    | some cc => cases station with
      | none => simp [clean_congestion_col_idem]
      | some cs => simp [clean_congestion_col_idem, clean_station_col_idem]

/-! ## C6: column standardization -/

theorem takeWhile_digits : ∀ (ds rest : List Char), (∀ c ∈ ds, c.isDigit = true) →
    (∀ c, rest.head? = some c → c.isDigit = false) →
    (ds ++ rest).takeWhile Char.isDigit = ds ∧ (ds ++ rest).dropWhile Char.isDigit = rest
  | [], rest => fun _ hr => by
    cases rest with
    | nil => exact ⟨rfl, rfl⟩
    | cons c cs =>
      have hc := hr c rfl
      rw [List.nil_append]
      exact ⟨List.takeWhile_cons_of_neg (by simp [hc]),
        List.dropWhile_cons_of_neg (by simp [hc])⟩
  | d :: ds, rest => fun hds hr => by
    have hd := hds d (List.mem_cons_self _ _)
    obtain ⟨h1, h2⟩ := takeWhile_digits ds rest (fun c hc => hds c (List.mem_cons_of_mem _ hc)) hr
    rw [List.cons_append, List.takeWhile_cons_of_pos (by simp [hd]),
      List.dropWhile_cons_of_pos (by simp [hd]), h1, h2]
    exact ⟨rfl, rfl⟩

/-- A Korean identifier label (non-digit first character) is never a header
that starts with a digit. -/
theorem key_ne_digit_head (s : String) (c0 : Char) (hs : s.data.head? = some c0)
    (h0 : c0.isDigit = false) (d : Char) (ds : List Char) (hd : d.isDigit = true) :
    s ≠ String.mk (d :: ds) := by
  intro he
  rw [he] at hs
  simp only [List.head?_cons, Option.some_inj] at hs
  subst hs
  rw [hd] at h0
  cases h0

theorem mapping_find?_digit_head (d : Char) (ds : List Char) (hd : d.isDigit = true) :
    COLUMN_MAPPING.find? (fun p => decide (p.1 = String.mk (d :: ds))) = none := by
  rw [List.find?_eq_none]
  intro p hp
  simp only [decide_eq_true_eq]
  have hne : p.1 ≠ String.mk (d :: ds) := by
    simp only [COLUMN_MAPPING, List.mem_cons, List.not_mem_nil, or_false] at hp
    rcases hp with rfl | rfl | rfl | rfl | rfl
    · exact key_ne_digit_head "요일구분" '요' rfl (by decide) d ds hd
    · exact key_ne_digit_head "호선" '호' rfl (by decide) d ds hd
    · exact key_ne_digit_head "역번호" '역' rfl (by decide) d ds hd
    · exact key_ne_digit_head "출발역" '출' rfl (by decide) d ds hd
    · exact key_ne_digit_head "상하구분" '상' rfl (by decide) d ds hd
  simpa using hne

/-- The full time-pattern computation on a header of the exact shape
`digits 시 digits 분`. -/
theorem std_time_chars_match (ds1 ds2 : List Char) (h1 : ds1 ≠ []) (h2 : ds2 ≠ [])
    (hd1 : ∀ c ∈ ds1, c.isDigit = true) (hd2 : ∀ c ∈ ds2, c.isDigit = true) :
    standardize_time_chars (ds1 ++ '시' :: (ds2 ++ ['분'])) =
      some (pad2 (digitsVal ds1) ++ ":" ++ pad2 (digitsVal ds2)) := by
  obtain ⟨ht1, hr1⟩ := takeWhile_digits ds1 ('시' :: (ds2 ++ ['분'])) hd1
    (by intro c hc; simp only [List.head?_cons, Option.some_inj] at hc; subst hc; decide)
  obtain ⟨ht2, hr2⟩ := takeWhile_digits ds2 ['분'] hd2
    (by intro c hc; simp only [List.head?_cons, Option.some_inj] at hc; subst hc; decide)
  have he1 : ds1.isEmpty = false := by cases ds1 with | nil => exact absurd rfl h1 | cons a as => rfl
  have he2 : ds2.isEmpty = false := by cases ds2 with | nil => exact absurd rfl h2 | cons a as => rfl
  simp only [standardize_time_chars, ht1, hr1, ht2, hr2, he1, he2, Bool.false_eq_true,
    if_false, if_true]

/-- C6: every raw header of the exact form `h시m분` (nonempty digit runs) is
standardized to the zero-padded `HH:MM` string, both by the time-pattern
helper and by the full per-header renaming (no identifier label starts with a
digit); any header matching neither the identifier lookup nor the time
pattern passes through unchanged; and the renaming is applied headerwise, so
the result does not depend on header order. -/
theorem c6_standardize_columns_spec :
    (∀ ds1 ds2 : List Char, ds1 ≠ [] → ds2 ≠ [] →
      (∀ c ∈ ds1, c.isDigit = true) → (∀ c ∈ ds2, c.isDigit = true) →
      standardize_time_column (String.mk (ds1 ++ '시' :: (ds2 ++ ['분']))) =
        some (pad2 (digitsVal ds1) ++ ":" ++ pad2 (digitsVal ds2)) ∧
      rename_one (String.mk (ds1 ++ '시' :: (ds2 ++ ['분']))) =
        pad2 (digitsVal ds1) ++ ":" ++ pad2 (digitsVal ds2)) ∧
    (∀ col : String, (∀ p ∈ COLUMN_MAPPING, p.1 ≠ col) → standardize_time_column col = none →
      rename_one col = col) ∧
    (∀ cols : List String, standardize_columns cols = cols.map rename_one) ∧
    (∀ cols cols' : List String, cols.Perm cols' →
      (standardize_columns cols).Perm (standardize_columns cols')) := by
  refine ⟨?_, ?_, fun _ => rfl, fun cols cols' h => h.map rename_one⟩
  · intro ds1 ds2 h1 h2 hd1 hd2
    have hstd : standardize_time_column (String.mk (ds1 ++ '시' :: (ds2 ++ ['분']))) =
        some (pad2 (digitsVal ds1) ++ ":" ++ pad2 (digitsVal ds2)) :=
      std_time_chars_match ds1 ds2 h1 h2 hd1 hd2
    refine ⟨hstd, ?_⟩
    cases ds1 with
    | nil => exact absurd rfl h1
    | cons d ds =>
      have hfind := mapping_find?_digit_head d (ds ++ '시' :: (ds2 ++ ['분']))
        (hd1 d (List.mem_cons_self _ _))
      rw [List.cons_append] at hstd ⊢
      simp only [rename_one, hfind, hstd]
      rfl
  · intro col hmap hstd
    have hfind : COLUMN_MAPPING.find? (fun p => decide (p.1 = col)) = none := by
      rw [List.find?_eq_none]
      intro p hp
      simpa using hmap p hp
    simp only [rename_one, hfind, hstd]
    rfl

/-- Witness for C6: `5시30분` becomes `05:30`; the header `foo` matches
neither rule and is unchanged; permuted headers give permuted results. -/
theorem c6_standardize_columns_spec_witness :
    standardize_time_column "5시30분" = some "05:30" ∧
    rename_one "5시30분" = "05:30" ∧
    rename_one "foo" = "foo" ∧
    (standardize_columns ["5시30분", "요일구분"]).Perm
      (standardize_columns ["요일구분", "5시30분"]) := by
  obtain ⟨ha, hb⟩ := c6_standardize_columns_spec.1 ['5'] ['3', '0']
    (by decide) (by decide) (by decide) (by decide)
  refine ⟨?_, ?_, ?_, ?_⟩
  · rw [show ("5시30분" : String) = String.mk (['5'] ++ '시' :: (['3', '0'] ++ ['분'])) from rfl, ha]
    rfl
  · rw [show ("5시30분" : String) = String.mk (['5'] ++ '시' :: (['3', '0'] ++ ['분'])) from rfl, hb]
    rfl
  · exact c6_standardize_columns_spec.2.1 "foo" (by decide) (by decide)
  · exact c6_standardize_columns_spec.2.2.2 _ _ (List.Perm.swap _ _ _)

/-! ## C7: wide-to-long reshaping -/

/-- A one-row wide example table (the spec's end-to-end example). -/
def rowEx : List RawCell :=
  [RawCell.str "평일".data, RawCell.str "2호선".data, RawCell.str "강남".data,
   RawCell.str "상행".data, RawCell.num (some 10), RawCell.num (some 45)]

def wideEx : WideTable :=
  { cols := ["day_type", "line", "station_name", "direction", "05:30", "06:00"],
    rows := [rowEx] }

/-- Indexing into a concatenation of equal-length blocks. -/
theorem flatMap_getElem? {α β : Type} (R : ℕ) (f : α → List β)
    (hlen : ∀ c, (f c).length = R) :
    ∀ (tc : List α) (j i : ℕ) (c : α), i < R → tc[j]? = some c →
      (tc.flatMap f)[j * R + i]? = (f c)[i]?
  | [], j, i, c => by intro _ h; simp at h
  | t :: ts, 0, i, c => by
    intro hi hj
    simp only [List.getElem?_cons_zero, Option.some_inj] at hj
    subst hj
    rw [List.flatMap_cons, Nat.zero_mul, Nat.zero_add,
      List.getElem?_append_left (by rw [hlen]; exact hi)]
  | t :: ts, j + 1, i, c => by
    intro hi hj
    simp only [List.getElem?_cons_succ] at hj
    rw [List.flatMap_cons, List.getElem?_append_right (by rw [hlen]; nlinarith [Nat.succ_mul j R]),
      hlen]
    have harith : (j + 1) * R + i - R = j * R + i := by
      rw [Nat.succ_mul]
      omega
    rw [harith]
    exact flatMap_getElem? R f hlen ts j i c hi hj

theorem length_flatMap_const {α β : Type} (R : ℕ) (f : α → List β)
    (hlen : ∀ c, (f c).length = R) :
    ∀ tc : List α, (tc.flatMap f).length = tc.length * R
  | [] => by simp
  | t :: ts => by
    rw [List.flatMap_cons, List.length_append, hlen, length_flatMap_const R f hlen ts,
      List.length_cons, Nat.succ_mul, Nat.add_comm]

/-- C7: `wide_to_long` is exactly the melt: its output has
`len(wide) * (number of non-identifier columns)` rows, and the output row at
position `j * len(wide) + i` (block `j` = the j-th time column, entry `i` =
the i-th original row) carries that row's identifier values, `time_slot` =
the j-th non-identifier column name and `congestion` = that cell — a
position-wise bijection between output rows and input cells, with no
deduplication. -/
theorem c7_wide_to_long_spec (df : WideTable) :
    (wide_to_long df).length = df.rows.length * (wide_time_cols df).length ∧
    (∀ (j i : ℕ) (c : String) (row : List RawCell),
      (wide_time_cols df)[j]? = some c → df.rows[i]? = some row →
      (wide_to_long df)[j * df.rows.length + i]? =
        some { ids := (wide_id_cols df).map (fun ic => (ic, cellAt df.cols row ic)),
               time_slot := c, congestion := cellAt df.cols row c }) := by
  constructor
  · rw [wide_to_long, length_flatMap_const df.rows.length _ (fun c => List.length_map _ _),
      Nat.mul_comm]
  · intro j i c row hj hi
    have hi' : i < df.rows.length := by
      by_contra hlt
      rw [List.getElem?_eq_none (Nat.le_of_not_lt hlt)] at hi
      cases hi
    rw [wide_to_long, flatMap_getElem? df.rows.length _ (fun c => List.length_map _ _)
      (wide_time_cols df) j i c hi' hj, List.getElem?_map, hi]
    rfl

/-- Witness for C7: the spec example row with two time columns melts to two
long rows, block-major, each holding the original cell. -/
theorem c7_wide_to_long_spec_witness :
    (wide_to_long wideEx).length = 2 ∧
    (wide_to_long wideEx)[0]? =
      some { ids := (wide_id_cols wideEx).map
               (fun ic => (ic, cellAt wideEx.cols rowEx ic)),
             time_slot := "05:30", congestion := cellAt wideEx.cols rowEx "05:30" } ∧
    (wide_to_long wideEx)[1]? =
      some { ids := (wide_id_cols wideEx).map
               (fun ic => (ic, cellAt wideEx.cols rowEx ic)),
             time_slot := "06:00", congestion := cellAt wideEx.cols rowEx "06:00" } := by
  refine ⟨?_, ?_, ?_⟩
  · rw [(c7_wide_to_long_spec wideEx).1]
    decide
  · exact (c7_wide_to_long_spec wideEx).2 0 0 "05:30" rowEx (by decide) rfl
  · exact (c7_wide_to_long_spec wideEx).2 1 0 "06:00" rowEx (by decide) rfl

/-! ## C2: peak-time analysis -/

/-- The positive congestion values of a group (what peak/least range over). -/
def posVals (g : List Row) : List ℚ := (posPairs g).map (fun p => p.2)

theorem pickMaxFirst_eq_none : ∀ {l : List (Row × ℚ)}, pickMaxFirst l = none ↔ l = []
  | [] => by simp [pickMaxFirst]
  | a :: l => by
    rw [pickMaxFirst]
    cases hl : pickMaxFirst l with
    | none => simp
    | some y =>
      dsimp only
      constructor
      · intro h; split at h <;> cases h
      · intro h; cases h

theorem pickMaxFirst_mem : ∀ {l : List (Row × ℚ)} {x}, pickMaxFirst l = some x → x ∈ l
  | [], x => by intro h; cases h
  | a :: l, x => by
    intro h
    rw [pickMaxFirst] at h
    cases hl : pickMaxFirst l with
    | none => rw [hl] at h; cases h; exact List.mem_cons_self _ _
    | some y =>
      rw [hl] at h
      dsimp only at h
      by_cases hc : a.2 < y.2
      · rw [if_pos hc] at h
        cases h
        exact List.mem_cons_of_mem _ (pickMaxFirst_mem hl)
      · rw [if_neg hc] at h
        cases h
        exact List.mem_cons_self _ _

theorem pickMaxFirst_ge : ∀ {l : List (Row × ℚ)} {x}, pickMaxFirst l = some x →
    ∀ y ∈ l, y.2 ≤ x.2
  | [], x => by intro h; cases h
  | a :: l, x => by
    intro h y hy
    rw [pickMaxFirst] at h
    cases hl : pickMaxFirst l with
    | none =>
      rw [hl] at h
      cases h
      rcases pickMaxFirst_eq_none.1 hl with rfl
      rcases List.mem_singleton.1 hy with rfl
      exact le_refl _
    | some z =>
      rw [hl] at h
      dsimp only at h
      rcases List.mem_cons.1 hy with rfl | hy2
      · by_cases hc : y.2 < z.2
        · rw [if_pos hc] at h; cases h; exact le_of_lt hc
        · rw [if_neg hc] at h; cases h; exact le_refl _
      · have hz := pickMaxFirst_ge hl y hy2
        by_cases hc : a.2 < z.2
        · rw [if_pos hc] at h; cases h; exact hz
        · rw [if_neg hc] at h; cases h; exact le_trans hz (le_of_not_lt hc)

theorem pickMinFirst_eq_none : ∀ {l : List (Row × ℚ)}, pickMinFirst l = none ↔ l = []
  | [] => by simp [pickMinFirst]
  | a :: l => by
    rw [pickMinFirst]
    cases hl : pickMinFirst l with
    | none => simp
    | some y =>
      dsimp only
      constructor
      · intro h; split at h <;> cases h
      · intro h; cases h

theorem pickMinFirst_mem : ∀ {l : List (Row × ℚ)} {x}, pickMinFirst l = some x → x ∈ l
  | [], x => by intro h; cases h
  | a :: l, x => by
    intro h
    rw [pickMinFirst] at h
    cases hl : pickMinFirst l with
    | none => rw [hl] at h; cases h; exact List.mem_cons_self _ _
    | some y =>
      rw [hl] at h
      dsimp only at h
      by_cases hc : y.2 < a.2
      · rw [if_pos hc] at h
        cases h
        exact List.mem_cons_of_mem _ (pickMinFirst_mem hl)
      · rw [if_neg hc] at h
        cases h
        exact List.mem_cons_self _ _

theorem pickMinFirst_le : ∀ {l : List (Row × ℚ)} {x}, pickMinFirst l = some x →
    ∀ y ∈ l, x.2 ≤ y.2
  | [], x => by intro h; cases h
  | a :: l, x => by
    intro h y hy
    rw [pickMinFirst] at h
    cases hl : pickMinFirst l with
    | none =>
      rw [hl] at h
      cases h
      rcases pickMinFirst_eq_none.1 hl with rfl
      rcases List.mem_singleton.1 hy with rfl
      exact le_refl _
    | some z =>
      rw [hl] at h
      dsimp only at h
      rcases List.mem_cons.1 hy with rfl | hy2
      · by_cases hc : z.2 < y.2
        · rw [if_pos hc] at h; cases h; exact le_of_lt hc
        · rw [if_neg hc] at h; cases h; exact le_refl _
      · have hz := pickMinFirst_le hl y hy2
        by_cases hc : z.2 < a.2
        · rw [if_pos hc] at h; cases h; exact hz
        · rw [if_neg hc] at h; cases h; exact le_trans (le_of_not_lt hc) hz

theorem mem_posPairs {g : List Row} {p : Row × ℚ} :
    p ∈ posPairs g ↔ p.1 ∈ g ∧ p.1.congestion = some p.2 ∧ 0 < p.2 := by
  simp only [posPairs, List.mem_filterMap]
  constructor
  · rintro ⟨r, hr, hf⟩
    cases hc : r.congestion with
    | none => rw [hc] at hf; cases hf
    | some q =>
      rw [hc] at hf
      dsimp only at hf
      by_cases hq : 0 < q
      · rw [if_pos hq] at hf
        cases hf
        exact ⟨hr, hc, hq⟩
      · rw [if_neg hq] at hf; cases hf
  · rintro ⟨hr, hc, hq⟩
    refine ⟨p.1, hr, ?_⟩
    rw [hc]
    dsimp only
    rw [if_pos hq]

theorem listVar_nonneg (vs : List ℚ) (q : ℚ) (h : listVar vs = some q) : 0 ≤ q := by
  unfold listVar at h
  split at h
  · cases h
  · rename_i hlen
    cases h
    apply div_nonneg
    · exact List.sum_nonneg (by
        intro x hx
        rcases List.mem_map.1 hx with ⟨y, _, rfl⟩
        positivity)
    · have h2 : 2 ≤ vs.length := by omega
      have : (2:ℚ) ≤ (vs.length : ℚ) := by exact_mod_cast h2
      linarith

theorem listVar_eq_none_iff (vs : List ℚ) : listVar vs = none ↔ vs.length ≤ 1 := by
  unfold listVar
  split <;> simp_all

/-- Unpacking one output row of `calc_peak_times`. -/
theorem calc_peak_times_mem {df : List Row} {r : PeakRow} (h : r ∈ calc_peak_times df) :
    ∃ pk ls,
      pickMaxFirst (posPairs (rowsOf4 (r.day_type, r.line, r.station_name, r.direction) df)) =
        some pk ∧
      pickMinFirst (posPairs (rowsOf4 (r.day_type, r.line, r.station_name, r.direction) df)) =
        some ls ∧
      r.peak_time = pk.1.time_slot ∧ r.peak_congestion = pk.2 ∧
      r.least_time = ls.1.time_slot ∧ r.least_congestion = ls.2 ∧
      r.avg_congestion =
        listMean (colVals (rowsOf4 (r.day_type, r.line, r.station_name, r.direction) df)) ∧
      r.variance =
        listVar (colVals (rowsOf4 (r.day_type, r.line, r.station_name, r.direction) df)) := by
  rw [calc_peak_times] at h
  rcases List.mem_filterMap.1 h with ⟨k, _, hf⟩
  dsimp only at hf
  cases hmax : pickMaxFirst (posPairs (rowsOf4 k df)) with
  | none => rw [hmax] at hf; cases hf
  | some pk =>
    cases hmin : pickMinFirst (posPairs (rowsOf4 k df)) with
    | none => rw [hmax, hmin] at hf; cases hf
    | some ls =>
      rw [hmax, hmin] at hf
      obtain ⟨a, b, c, d⟩ := k
      cases hf
      exact ⟨pk, ls, hmax, hmin, rfl, rfl, rfl, rfl, rfl, rfl⟩

/-- C2 counterexample: a group with exactly one positive reading produces an
output row whose `variance` is NaN (pandas sample variance, ddof=1, of a
single value), so "variance >= 0 for every output row" fails on it. -/
theorem c2_counterexample :
    ¬ (∀ r ∈ calc_peak_times
        [⟨"평일", "2호선", "강남", "상행", "05:30", some 50⟩],
        ∃ q, r.variance = some q ∧ 0 ≤ q) := by
  intro h
  obtain ⟨q, hq, _⟩ := h
    ⟨"평일", "2호선", "강남", "상행", "05:30", 50, "05:30", 50,
      listMean (colVals (rowsOf4 ("평일", "2호선", "강남", "상행")
        [⟨"평일", "2호선", "강남", "상행", "05:30", some 50⟩])),
      listVar (colVals (rowsOf4 ("평일", "2호선", "강남", "상행")
        [⟨"평일", "2호선", "강남", "상행", "05:30", some 50⟩]))⟩
    (List.mem_cons_self _ _)
  have hnone : listVar (colVals (rowsOf4 ("평일", "2호선", "강남", "상행")
      [⟨"평일", "2호선", "강남", "상행", "05:30", some 50⟩])) = none := by decide
  dsimp only at hq
  rw [hnone] at hq
  cases hq

/-- C2 amended: for every output row of `calc_peak_times`, peak and least are
the (first-occurrence) maximum and minimum over the group's rows with
congestion > 0 (so `least <= peak`), the mean and sample variance are taken
over the unfiltered group (zeros included, missing skipped), a group with no
positive reading yields no output row, and the variance is nonnegative
whenever it is defined — it is NaN exactly when the group has fewer than two
non-missing values (so not every output row satisfies `variance >= 0`). -/
theorem c2_peak_times_spec (df : List Row) :
    (∀ r ∈ calc_peak_times df,
      (∃ row ∈ rowsOf4 (r.day_type, r.line, r.station_name, r.direction) df,
        row.congestion = some r.peak_congestion ∧ row.time_slot = r.peak_time) ∧
      r.peak_congestion ∈ posVals (rowsOf4 (r.day_type, r.line, r.station_name, r.direction) df) ∧
      (∀ v ∈ posVals (rowsOf4 (r.day_type, r.line, r.station_name, r.direction) df),
        v ≤ r.peak_congestion) ∧
      (∃ row ∈ rowsOf4 (r.day_type, r.line, r.station_name, r.direction) df,
        row.congestion = some r.least_congestion ∧ row.time_slot = r.least_time) ∧
      r.least_congestion ∈ posVals (rowsOf4 (r.day_type, r.line, r.station_name, r.direction) df) ∧
      (∀ v ∈ posVals (rowsOf4 (r.day_type, r.line, r.station_name, r.direction) df),
        r.least_congestion ≤ v) ∧
      r.least_congestion ≤ r.peak_congestion ∧
      r.avg_congestion =
        listMean (colVals (rowsOf4 (r.day_type, r.line, r.station_name, r.direction) df)) ∧
      r.variance =
        listVar (colVals (rowsOf4 (r.day_type, r.line, r.station_name, r.direction) df)) ∧
      (∀ q, r.variance = some q → 0 ≤ q) ∧
      (r.variance = none ↔
        (colVals (rowsOf4 (r.day_type, r.line, r.station_name, r.direction) df)).length ≤ 1)) ∧
    (∀ k : Key4, posPairs (rowsOf4 k df) = [] →
      ∀ r ∈ calc_peak_times df, (r.day_type, r.line, r.station_name, r.direction) ≠ k) := by
  constructor
  · intro r hr
    obtain ⟨pk, ls, hmax, hmin, hpt, hpc, hlt, hlc, havg, hvar⟩ := calc_peak_times_mem hr
    have hpkmem := pickMaxFirst_mem hmax
    have hlsmem := pickMinFirst_mem hmin
    obtain ⟨hpk1, hpk2, _⟩ := mem_posPairs.1 hpkmem
    obtain ⟨hls1, hls2, _⟩ := mem_posPairs.1 hlsmem
    refine ⟨⟨pk.1, hpk1, by rw [hpc]; exact hpk2, by rw [hpt]⟩,
      by rw [hpc]; exact List.mem_map_of_mem _ hpkmem,
      ?_,
      ⟨ls.1, hls1, by rw [hlc]; exact hls2, by rw [hlt]⟩,
      by rw [hlc]; exact List.mem_map_of_mem _ hlsmem,
      ?_,
      ?_, havg, hvar, ?_, ?_⟩
    · intro v hv
      rcases List.mem_map.1 hv with ⟨y, hy, rfl⟩
      rw [hpc]
      exact pickMaxFirst_ge hmax y hy
    · intro v hv
      rcases List.mem_map.1 hv with ⟨y, hy, rfl⟩
      rw [hlc]
      exact pickMinFirst_le hmin y hy
    · rw [hpc, hlc]
      exact pickMinFirst_le hmin pk hpkmem
    · intro q hq
      rw [hvar] at hq
      exact listVar_nonneg _ _ hq
    · rw [hvar]
      exact listVar_eq_none_iff _
  · intro k hk r hr hkey
    obtain ⟨pk, _, hmax, _⟩ := calc_peak_times_mem hr
    rw [hkey, hk] at hmax
    cases hmax

/-- Example table for the peak-time witness: one two-reading group and one
group whose only reading is zero. -/
def peakExampleTable : List Row :=
  [⟨"평일", "2호선", "강남", "상행", "05:30", some 10⟩,
   ⟨"평일", "2호선", "강남", "상행", "06:00", some 20⟩,
   ⟨"평일", "2호선", "역삼", "상행", "05:30", some 0⟩]

/-- Witness for C2: in the two-reading group every positive value is at most
the peak 20, the variance is nonnegative when defined, and the all-zero
station produces no output row. -/
theorem c2_peak_times_spec_witness :
    (∀ v ∈ posVals (rowsOf4 ("평일", "2호선", "강남", "상행") peakExampleTable), v ≤ 20) ∧
    (∀ q, listVar (colVals (rowsOf4 ("평일", "2호선", "강남", "상행") peakExampleTable)) =
      some q → 0 ≤ q) ∧
    (∀ r ∈ calc_peak_times peakExampleTable,
      (r.day_type, r.line, r.station_name, r.direction) ≠ ("평일", "2호선", "역삼", "상행")) := by
  have hmem : (⟨"평일", "2호선", "강남", "상행", "06:00", 20, "05:30", 10,
      listMean (colVals (rowsOf4 ("평일", "2호선", "강남", "상행") peakExampleTable)),
      listVar (colVals (rowsOf4 ("평일", "2호선", "강남", "상행") peakExampleTable))⟩ : PeakRow)
      ∈ calc_peak_times peakExampleTable := List.mem_cons_self _ _
  obtain ⟨_, _, hge, _, _, _, _, _, _, hnn, _⟩ :=
    (c2_peak_times_spec peakExampleTable).1 _ hmem
  exact ⟨hge, fun q hq => hnn q hq,
    (c2_peak_times_spec peakExampleTable).2 ("평일", "2호선", "역삼", "상행") (by decide)⟩

/-! ## C4: top-N most/least congested -/

/-- The station-average content of a top-N output row (rank columns dropped). -/
def toElig (r : TopRow) : EligRow :=
  ⟨r.day_type, r.line, r.station_name, r.direction, r.avg_congestion⟩

theorem assignRanks_map_toElig (rt : String) :
    ∀ (i : ℕ) (l : List EligRow), (assignRanks rt i l).map toElig = l
  | _, [] => rfl
  | i, e :: l => by
    rw [assignRanks, List.map_cons, assignRanks_map_toElig rt (i + 1) l]
    rfl

theorem assignRanks_length (rt : String) :
    ∀ (i : ℕ) (l : List EligRow), (assignRanks rt i l).length = l.length
  | _, [] => rfl
  | i, e :: l => by
    rw [assignRanks, List.length_cons, assignRanks_length rt (i + 1) l, List.length_cons]

theorem assignRanks_map_rank (rt : String) :
    ∀ (i : ℕ) (l : List EligRow),
      (assignRanks rt i l).map (fun r => r.rank) = List.range' i l.length
  | _, [] => rfl
  | i, e :: l => by
    rw [assignRanks, List.map_cons, assignRanks_map_rank rt (i + 1) l, List.length_cons,
      List.range'_succ]

theorem mem_assignRanks {rt : String} :
    ∀ {i : ℕ} {l : List EligRow} {r : TopRow},
      r ∈ assignRanks rt i l → ∃ e ∈ l, toElig r = e ∧ r.rank_type = rt
  | _, [], r => by intro h; cases h
  | i, e :: l, r => by
    intro h
    rw [assignRanks] at h
    rcases List.mem_cons.1 h with rfl | h2
    · exact ⟨e, List.mem_cons_self _ _, rfl, rfl⟩
    · obtain ⟨e2, he2, hq, hrt⟩ := mem_assignRanks h2
      exact ⟨e2, List.mem_cons_of_mem _ he2, hq, hrt⟩

theorem mem_dropMissingAvg {rs : List StationAvgRow} {e : EligRow} :
    e ∈ dropMissingAvg rs ↔
      ∃ st ∈ rs, st.avg_congestion = some e.avg_congestion ∧ st.day_type = e.day_type ∧
        st.line = e.line ∧ st.station_name = e.station_name ∧ st.direction = e.direction := by
  simp only [dropMissingAvg, List.mem_filterMap]
  constructor
  · rintro ⟨st, hst, hf⟩
    cases hav : st.avg_congestion with
    | none => rw [hav] at hf; cases hf
    | some q =>
      rw [hav] at hf
      dsimp only at hf
      cases hf
      exact ⟨st, hst, hav, rfl, rfl, rfl, rfl⟩
  · rintro ⟨st, hst, hav, hd, hl, hs, hdir⟩
    refine ⟨st, hst, ?_⟩
    rw [hav]
    dsimp only
    cases e
    simp_all

/-- Filtering the concatenation of per-key blocks by one key returns that
key's block (keys distinct, each block constant on its key). -/
theorem filter_flatten_chunks {K : Type} [DecidableEq K] (key : TopRow → K)
    (ds : List K) (f : K → List TopRow) (hd : ds.Nodup)
    (hf : ∀ d, ∀ x ∈ f d, key x = d) (d : K) :
    ((ds.map f).flatten.filter (fun x => decide (key x = d))) =
      if d ∈ ds then f d else [] := by
  induction ds with
  | nil => simp
  | cons d0 ds ih =>
    have hnodup := List.nodup_cons.1 hd
    rw [List.map_cons, List.flatten_cons, List.filter_append, ih hnodup.2]
    by_cases hd0 : d0 = d
    · subst hd0
      rw [List.filter_eq_self.2 (fun x hx => by simp [hf d0 x hx]),
        if_neg hnodup.1, if_pos (List.mem_cons_self _ _), List.append_nil]
    · rw [List.filter_eq_nil_iff.2 (fun x hx => by simp [hf d0 x hx, hd0]), List.nil_append]
      by_cases hdm : d ∈ ds
      · rw [if_pos hdm, if_pos (List.mem_cons_of_mem _ hdm)]
      · rw [if_neg hdm, if_neg (by
          rw [List.mem_cons]
          rintro (rfl | h)
          · exact hd0 rfl
          · exact hdm h)]

/-- Shared shape of both top-N functions: per-day_type blocks of ranked rows,
each block the first `n` of a stable sort of the eligible (non-missing mean)
station averages of that day_type. -/
theorem topn_spec (sa : List StationAvgRow) (n : ℕ) (rt : String)
    (rel : EligRow → EligRow → Prop) [DecidableRel rel]
    [IsTotal EligRow rel] [IsTrans EligRow rel] (out : List TopRow)
    (hout : pd_concat ((uniqFirst (sa.map (fun r => r.day_type))).map (fun d =>
        assignRanks rt 1 ((List.insertionSort rel
          (dropMissingAvg (sa.filter (fun r => decide (r.day_type = d))))).take n))) =
      Except.ok out) :
    (∀ r ∈ out, r.rank_type = rt ∧ ∃ st ∈ sa, st.avg_congestion = some r.avg_congestion) ∧
    (∀ d : String,
      (out.filter (fun r => decide (r.day_type = d))).map (fun r => r.rank) =
        List.range' 1 (out.filter (fun r => decide (r.day_type = d))).length ∧
      (out.filter (fun r => decide (r.day_type = d))).Pairwise
        (fun a b => rel (toElig a) (toElig b)) ∧
      (out.filter (fun r => decide (r.day_type = d))).length =
        min n (dropMissingAvg (sa.filter (fun r => decide (r.day_type = d)))).length ∧
      ((dropMissingAvg (sa.filter (fun r => decide (r.day_type = d)))).length ≤ n →
        ((out.filter (fun r => decide (r.day_type = d))).map toElig).Perm
          (dropMissingAvg (sa.filter (fun r => decide (r.day_type = d)))))) := by
  have hflat : out = ((uniqFirst (sa.map (fun r => r.day_type))).map (fun d =>
      assignRanks rt 1 ((List.insertionSort rel
        (dropMissingAvg (sa.filter (fun r => decide (r.day_type = d))))).take n))).flatten := by
    unfold pd_concat at hout
    split at hout
    · cases hout
    · exact (Except.ok.inj hout).symm
  have hchunkday : ∀ d : String, ∀ x ∈ assignRanks rt 1 ((List.insertionSort rel
      (dropMissingAvg (sa.filter (fun r => decide (r.day_type = d))))).take n),
      x.day_type = d := by
    intro d x hx
    obtain ⟨e, he, htoe, _⟩ := mem_assignRanks hx
    have he2 : e ∈ dropMissingAvg (sa.filter (fun r => decide (r.day_type = d))) :=
      (List.mem_insertionSort rel).1 ((List.take_sublist _ _).subset he)
    obtain ⟨st, hst, _, hd, _⟩ := mem_dropMissingAvg.1 he2
    have hstd : st.day_type = d := of_decide_eq_true (List.mem_filter.1 hst).2
    have : x.day_type = e.day_type := congrArg EligRow.day_type htoe
    rw [this, ← hd, hstd]
  constructor
  · intro r hr
    rw [hflat] at hr
    obtain ⟨l, hl, hrl⟩ := List.mem_flatten.1 hr
    obtain ⟨d, _, rfl⟩ := List.mem_map.1 hl
    obtain ⟨e, he, htoe, hrt⟩ := mem_assignRanks hrl
    have he2 : e ∈ dropMissingAvg (sa.filter (fun r => decide (r.day_type = d))) :=
      (List.mem_insertionSort rel).1 ((List.take_sublist _ _).subset he)
    obtain ⟨st, hst, hav, _⟩ := mem_dropMissingAvg.1 he2
    refine ⟨hrt, st, (List.mem_filter.1 hst).1, ?_⟩
    rw [hav]
    have : r.avg_congestion = e.avg_congestion := congrArg EligRow.avg_congestion htoe
    rw [this]
  · intro d
    have hfilter := filter_flatten_chunks (fun r => r.day_type)
      (uniqFirst (sa.map (fun r => r.day_type)))
      (fun d => assignRanks rt 1 ((List.insertionSort rel
        (dropMissingAvg (sa.filter (fun r => decide (r.day_type = d))))).take n))
      (nodup_uniqFirst _) hchunkday d
    rw [← hflat] at hfilter
    by_cases hd : d ∈ uniqFirst (sa.map (fun r => r.day_type))
    · rw [if_pos hd] at hfilter
      rw [hfilter]
      have hsorted : (List.insertionSort rel
          (dropMissingAvg (sa.filter (fun r => decide (r.day_type = d))))).Pairwise rel :=
        List.sorted_insertionSort rel _
      refine ⟨?_, ?_, ?_, ?_⟩
      · rw [assignRanks_map_rank, assignRanks_length]
      · have hmapped : ((assignRanks rt 1 ((List.insertionSort rel
            (dropMissingAvg (sa.filter (fun r => decide (r.day_type = d))))).take n)).map
              toElig).Pairwise rel := by
          rw [assignRanks_map_toElig]
          exact List.Pairwise.sublist (List.take_sublist _ _) hsorted
        exact List.pairwise_map.1 hmapped
      · rw [assignRanks_length, List.length_take, List.length_insertionSort]
      · intro hle
        rw [assignRanks_map_toElig,
          List.take_of_length_le (by rw [List.length_insertionSort]; exact hle)]
        exact List.perm_insertionSort rel _
    · rw [if_neg hd] at hfilter
      rw [hfilter]
      have hnil : sa.filter (fun r => decide (r.day_type = d)) = [] := by
        rw [List.filter_eq_nil_iff]
        intro st hst hdec
        exact hd (mem_uniqFirst.2 (List.mem_map.2 ⟨st, hst, of_decide_eq_true hdec⟩))
      rw [hnil]
      exact ⟨rfl, List.Pairwise.nil, by simp [dropMissingAvg], fun _ => by simp [dropMissingAvg]⟩

theorem uniqFirst_eq_nil {α : Type} [DecidableEq α] {l : List α} :
    uniqFirst l = [] ↔ l = [] := by
  simp [uniqFirst, List.dedup_eq_nil]

theorem pd_concat_error_iff (dfs : List (List TopRow)) :
    pd_concat dfs = Except.error "No objects to concatenate" ↔ dfs = [] := by
  unfold pd_concat
  split <;> rename_i h <;> simp_all

/-- C4 counterexample: `calc_top_n_least_congested` raises even on a
NON-empty input when no station mean is positive: the `avg_congestion > 0`
filter empties `station_avg`, the per-day loop never runs, and `pd.concat`
gets no objects — so "a partition with fewer than n eligible rows yields all
of them without padding or error" fails at a one-row all-zero table. -/
theorem c4_counterexample :
    calc_top_n_least_congested
      [⟨"평일", "2호선", "강남", "상행", "05:30", some 0⟩] 10 =
      Except.error "No objects to concatenate" := by
  have hkeys : groupKeys4 [⟨"평일", "2호선", "강남", "상행", "05:30", some 0⟩] =
      [("평일", "2호선", "강남", "상행")] := by decide
  have hr : rowsOf4 ("평일", "2호선", "강남", "상행")
      [⟨"평일", "2호선", "강남", "상행", "05:30", some 0⟩] =
      [⟨"평일", "2호선", "강남", "상행", "05:30", some 0⟩] := by decide
  have hsa : station_avg [⟨"평일", "2호선", "강남", "상행", "05:30", some 0⟩] =
      [⟨"평일", "2호선", "강남", "상행", some 0⟩] := by
    rw [station_avg, hkeys]
    simp only [List.map_cons, List.map_nil, hr]
    norm_num [colVals, listMean, List.filterMap]
  simp only [calc_top_n_least_congested, hsa]
  rfl

/-- C4 amended: for each of `calc_top_n_congested` and
`calc_top_n_least_congested`, whenever the function returns a table: every
row carries the constant `rank_type` ("혼잡" resp. "여유"); within every
day_type partition of the output the ranks are exactly 1..k with no gaps and
`avg_congestion` is sorted descending (resp. ascending); the partition holds
`min n e` rows where `e` is the number of eligible rows (non-missing mean;
for the least table also mean > 0), and when `e <= n` it is a permutation of
all of them — no padding; the least-congested table contains no row with
mean congestion 0.  The functions do not always return, however: the
congested table raises ValueError exactly when the station-average frame is
empty (empty input), and the least-congested table raises exactly when no
station group has positive mean congestion — which also happens on non-empty
input (see `c4_counterexample`). -/
theorem c4_top_n_spec (df : List Row) (n : ℕ) :
    (∀ out, calc_top_n_congested df n = Except.ok out →
      (∀ r ∈ out, r.rank_type = "혼잡") ∧
      (∀ d : String,
        (out.filter (fun r => decide (r.day_type = d))).map (fun r => r.rank) =
          List.range' 1 (out.filter (fun r => decide (r.day_type = d))).length ∧
        (out.filter (fun r => decide (r.day_type = d))).Pairwise
          (fun a b => b.avg_congestion ≤ a.avg_congestion) ∧
        (out.filter (fun r => decide (r.day_type = d))).length =
          min n (dropMissingAvg ((station_avg df).filter
            (fun r => decide (r.day_type = d)))).length ∧
        ((dropMissingAvg ((station_avg df).filter
            (fun r => decide (r.day_type = d)))).length ≤ n →
          ((out.filter (fun r => decide (r.day_type = d))).map toElig).Perm
            (dropMissingAvg ((station_avg df).filter
              (fun r => decide (r.day_type = d))))))) ∧
    (∀ out, calc_top_n_least_congested df n = Except.ok out →
      (∀ r ∈ out, r.rank_type = "여유") ∧
      (∀ r ∈ out, 0 < r.avg_congestion) ∧
      (∀ d : String,
        (out.filter (fun r => decide (r.day_type = d))).map (fun r => r.rank) =
          List.range' 1 (out.filter (fun r => decide (r.day_type = d))).length ∧
        (out.filter (fun r => decide (r.day_type = d))).Pairwise
          (fun a b => a.avg_congestion ≤ b.avg_congestion) ∧
        (out.filter (fun r => decide (r.day_type = d))).length =
          min n (dropMissingAvg (((station_avg df).filter
            (fun r => pyGt r.avg_congestion 0)).filter
              (fun r => decide (r.day_type = d)))).length ∧
        ((dropMissingAvg (((station_avg df).filter
            (fun r => pyGt r.avg_congestion 0)).filter
              (fun r => decide (r.day_type = d)))).length ≤ n →
          ((out.filter (fun r => decide (r.day_type = d))).map toElig).Perm
            (dropMissingAvg (((station_avg df).filter
              (fun r => pyGt r.avg_congestion 0)).filter
                (fun r => decide (r.day_type = d))))))) ∧
    (calc_top_n_congested df n = Except.error "No objects to concatenate" ↔
      station_avg df = []) ∧
    (calc_top_n_least_congested df n = Except.error "No objects to concatenate" ↔
      (station_avg df).filter (fun r => pyGt r.avg_congestion 0) = []) := by
  refine ⟨?_, ?_, ?_, ?_⟩
  · intro out hout
    obtain ⟨h1, h2⟩ := topn_spec (station_avg df) n "혼잡" eligDesc out hout
    exact ⟨fun r hr => (h1 r hr).1, fun d => h2 d⟩
  · intro out hout
    obtain ⟨h1, h2⟩ := topn_spec ((station_avg df).filter
      (fun r => pyGt r.avg_congestion 0)) n "여유" eligAsc out hout
    refine ⟨fun r hr => (h1 r hr).1, fun r hr => ?_, fun d => h2 d⟩
    obtain ⟨st, hst, hav⟩ := (h1 r hr).2
    have hgt := (List.mem_filter.1 hst).2
    rw [hav] at hgt
    exact of_decide_eq_true hgt
  · unfold calc_top_n_congested
    rw [pd_concat_error_iff, List.map_eq_nil_iff, uniqFirst_eq_nil, List.map_eq_nil_iff]
  · unfold calc_top_n_least_congested
    rw [pd_concat_error_iff, List.map_eq_nil_iff, uniqFirst_eq_nil, List.map_eq_nil_iff]

/-- Example table for the top-N witness: three stations on one day_type, one
of them with mean congestion 0. -/
def topExampleTable : List Row :=
  [⟨"평일", "2호선", "강남", "상행", "05:30", some 50⟩,
   ⟨"평일", "2호선", "역삼", "상행", "05:30", some 80⟩,
   ⟨"평일", "2호선", "잠실", "상행", "05:30", some 0⟩]

def topOutC : List TopRow :=
  [⟨"평일", "2호선", "역삼", "상행", 80, 1, "혼잡"⟩,
   ⟨"평일", "2호선", "강남", "상행", 50, 2, "혼잡"⟩,
   ⟨"평일", "2호선", "잠실", "상행", 0, 3, "혼잡"⟩]

def topOutL : List TopRow :=
  [⟨"평일", "2호선", "강남", "상행", 50, 1, "여유"⟩,
   ⟨"평일", "2호선", "역삼", "상행", 80, 2, "여유"⟩]

/-- The station averages of the example table, evaluated. -/
theorem topExample_station_avg :
    station_avg topExampleTable =
      [⟨"평일", "2호선", "강남", "상행", some 50⟩,
       ⟨"평일", "2호선", "역삼", "상행", some 80⟩,
       ⟨"평일", "2호선", "잠실", "상행", some 0⟩] := by
  have hkeys : groupKeys4 topExampleTable =
      [("평일", "2호선", "강남", "상행"), ("평일", "2호선", "역삼", "상행"),
       ("평일", "2호선", "잠실", "상행")] := by decide
  have hr1 : rowsOf4 ("평일", "2호선", "강남", "상행") topExampleTable =
      [⟨"평일", "2호선", "강남", "상행", "05:30", some 50⟩] := by decide
  have hr2 : rowsOf4 ("평일", "2호선", "역삼", "상행") topExampleTable =
      [⟨"평일", "2호선", "역삼", "상행", "05:30", some 80⟩] := by decide
  have hr3 : rowsOf4 ("평일", "2호선", "잠실", "상행") topExampleTable =
      [⟨"평일", "2호선", "잠실", "상행", "05:30", some 0⟩] := by decide
  rw [station_avg, hkeys]
  simp only [List.map_cons, List.map_nil, hr1, hr2, hr3]
  norm_num [colVals, listMean, List.filterMap]

/-- Witness for C4 at the example table: ranks 1..k, descending order in the
congested table, constant rank_type and strictly positive means in the
least-congested table (the zero-mean station is excluded). -/
theorem c4_top_n_spec_witness :
    ((topOutC.filter (fun r => decide (r.day_type = "평일"))).map (fun r => r.rank) =
      List.range' 1 (topOutC.filter (fun r => decide (r.day_type = "평일"))).length) ∧
    (topOutC.filter (fun r => decide (r.day_type = "평일"))).Pairwise
      (fun a b => b.avg_congestion ≤ a.avg_congestion) ∧
    (∀ r ∈ topOutL, r.rank_type = "여유") ∧
    (∀ r ∈ topOutL, 0 < r.avg_congestion) := by
  have hC : calc_top_n_congested topExampleTable 10 = Except.ok topOutC := by
    simp only [calc_top_n_congested, topExample_station_avg]
    rfl
  have hL : calc_top_n_least_congested topExampleTable 10 = Except.ok topOutL := by
    simp only [calc_top_n_least_congested, topExample_station_avg]
    rfl
  obtain ⟨-, h2⟩ := (c4_top_n_spec topExampleTable 10).1 topOutC hC
  obtain ⟨hrt, hpos, -⟩ := (c4_top_n_spec topExampleTable 10).2.1 topOutL hL
  exact ⟨(h2 "평일").1, (h2 "평일").2.1, hrt, hpos⟩

end BSK1
